import Mathlib

/-! Verification of the kafka-serde codec (src/ser.rs, src/de.rs, src/error.rs).
Bytes are modelled as `Nat` values below 256; machine integers as `Nat`/`Int`
with explicit reduction modulo `2 ^ w`; `usize` arithmetic wraps modulo
`2 ^ 64` exactly as release-build Rust does; Rust panics (out-of-range slice
indices, `Option::unwrap` on `None`) are a distinguished `panicked` outcome,
kept separate from the typed `ErrorKind` errors. -/

namespace KafkaSerde

/-- Big-endian byte list of width `w` for an unsigned value (`to_be_bytes`). -/
def natToBeBytes : Nat → Nat → List Nat
  | 0, _ => []
  | w + 1, v => natToBeBytes w (v / 256) ++ [v % 256]

/-- Unsigned value of a big-endian byte list (the endianness crate's
big-endian `read_*` combine). -/
def fromBeBytes (bs : List Nat) : Nat :=
  bs.foldl (fun acc b => acc * 256 + b) 0

/-- Reinterpret a `w`-byte unsigned value as two's-complement signed
(how `read_i16`/`read_i32`/`read_i64`/`as i8` view the raw bytes). -/
def asSigned (w n : Nat) : Int :=
  if n < 2 ^ (8 * w - 1) then (n : Int) else (n : Int) - ((2 ^ (8 * w) : Nat) : Int)

/-- Two's-complement bit pattern of a signed value (`to_be_bytes` of `iN`). -/
def twosComp (w : Nat) (v : Int) : Nat :=
  (v % ((2 ^ (8 * w) : Nat) : Int)).toNat

/-- `to_be_bytes` of a signed `w`-byte integer. -/
def intToBeBytes (w : Nat) (v : Int) : List Nat :=
  natToBeBytes w (twosComp w v)

/-- Modulus of `usize` arithmetic: release-build Rust addition wraps mod `2 ^ 64`. -/
def USIZE : Nat := 2 ^ 64

/-- `len as usize` on a signed value: sign-extension, i.e. reduction of the
signed value modulo `2 ^ 64` (so `-2` becomes `2 ^ 64 - 2`). -/
def intAsUsize (v : Int) : Nat := (v % ((2 ^ 64 : Nat) : Int)).toNat

/-- `ErrorKind` from src/error.rs (the `Io` payload is not modelled and
`Custom` carries its message). -/
inductive ErrorKind where
  | IoErr : ErrorKind
  | TypeNotSupported : String → ErrorKind
  | InvalidBoolEncoding : Nat → ErrorKind
  | InvalidStringEncoding : ErrorKind
  | NotEnoughBytes : ErrorKind
  | Custom : String → ErrorKind
  deriving DecidableEq

/-- The `KafkaDeserializer` cursor from src/de.rs: borrowed buffer plus
current position. -/
structure KafkaDeserializer where
  buf : List Nat
  pos : Nat
  deriving DecidableEq

/-- Outcome of one deserializer operation: success (value plus advanced
cursor), a typed error, or a Rust panic. -/
inductive DResult (α : Type) where
  | ok : α → KafkaDeserializer → DResult α
  | err : ErrorKind → DResult α
  | panicked : DResult α
  deriving DecidableEq

/-- `check_room`: fails with `NotEnoughBytes` when `self.pos + room >
self.buf.len()`; the `usize` addition wraps modulo `2 ^ 64`. -/
def check_room (d : KafkaDeserializer) (room : Nat) : DResult Unit :=
  if (d.pos + room) % USIZE > d.buf.length then .err .NotEnoughBytes
  else .ok () d

/-- `slice`: check room, advance `pos` (wrapping), return `&buf[begin..pos]`;
an inverted or out-of-bounds range in that indexing is a Rust panic. -/
def slice (d : KafkaDeserializer) (len : Nat) : DResult (List Nat) :=
  match check_room d len with
  | .err e => .err e
  | .panicked => .panicked
  | .ok _ _ =>
    let start := d.pos
    let newPos := (d.pos + len) % USIZE
    if start ≤ newPos ∧ newPos ≤ d.buf.length then
      .ok ((d.buf.drop start).take (newPos - start)) { d with pos := newPos }
    else
      .panicked

/-- `copy_slice`: identical bounds and cursor behaviour to `slice`; the only
difference in the source is that the bytes are copied into an owned `Vec`,
which is unobservable here. -/
def copy_slice (d : KafkaDeserializer) (len : Nat) : DResult (List Nat) :=
  slice d len

/-- `read_u8`: `check_room` for one byte, read `buf[pos]`, advance by one. -/
def read_u8 (d : KafkaDeserializer) : DResult Nat :=
  match check_room d 1 with
  | .err e => .err e
  | .panicked => .panicked
  | .ok _ _ =>
    match d.buf[d.pos]? with
    | some b => .ok b { d with pos := d.pos + 1 }
    | none => .panicked

/-- `read_i8`: the same byte reinterpreted by `value as i8`. -/
def read_i8 (d : KafkaDeserializer) : DResult Int :=
  match read_u8 d with
  | .ok b d1 => .ok (asSigned 1 b) d1
  | .err e => .err e
  | .panicked => .panicked

/-- The endianness crate's `read_*(&self.buf[self.pos..], BigEndian)` followed
by the `self.pos += size_of` advance: slicing `&buf[pos..]` with `pos > len`
is a Rust panic; a suffix shorter than `w` bytes is an `EndiannessError`,
which src/error.rs converts to `NotEnoughBytes`. -/
def readBeNat (w : Nat) (d : KafkaDeserializer) : DResult Nat :=
  if d.buf.length < d.pos then .panicked
  else if d.buf.length - d.pos < w then .err .NotEnoughBytes
  else .ok (fromBeBytes ((d.buf.drop d.pos).take w)) { d with pos := d.pos + w }

/-- `read_u16`. -/
def read_u16 (d : KafkaDeserializer) : DResult Nat := readBeNat 2 d

/-- `read_u32`. -/
def read_u32 (d : KafkaDeserializer) : DResult Nat := readBeNat 4 d

/-- `read_u64`. -/
def read_u64 (d : KafkaDeserializer) : DResult Nat := readBeNat 8 d

/-- Signed big-endian read of width `w` (the endianness crate's `read_i*`). -/
def readBeInt (w : Nat) (d : KafkaDeserializer) : DResult Int :=
  match readBeNat w d with
  | .ok n d1 => .ok (asSigned w n) d1
  | .err e => .err e
  | .panicked => .panicked

/-- `read_i16`. -/
def read_i16 (d : KafkaDeserializer) : DResult Int := readBeInt 2 d

/-- `read_i32`. -/
def read_i32 (d : KafkaDeserializer) : DResult Int := readBeInt 4 d

/-- `read_i64`. -/
def read_i64 (d : KafkaDeserializer) : DResult Int := readBeInt 8 d

/-- `deserialize_f64` / `read_f64`: an `f64` is modelled by its IEEE-754 bit
pattern (a `Nat` below `2 ^ 64`); `to_be_bytes` and `read_f64` act exactly on
that bit pattern, so the byte-level behaviour is captured without floating
point. -/
def read_f64bits (d : KafkaDeserializer) : DResult Nat := readBeNat 8 d

/-- `deserialize_bool`: one byte via `read_u8`; `0` is `false`, `1` is
`true`, anything else is `InvalidBoolEncoding(byte)`. -/
def deserialize_bool (d : KafkaDeserializer) : DResult Bool :=
  match read_u8 d with
  | .ok 0 d1 => .ok false d1
  | .ok 1 d1 => .ok true d1
  | .ok b _ => .err (.InvalidBoolEncoding b)
  | .err e => .err e
  | .panicked => .panicked

/-- Whether a byte is a UTF-8 continuation byte (`0x80..=0xBF`). -/
def isCont (b : Nat) : Bool := 0x80 ≤ b && b ≤ 0xBF

/-- Full UTF-8 validity as checked by `std::str::from_utf8` /
`String::from_utf8`: rejects bad leading bytes, truncated sequences,
overlong encodings, surrogates and code points above `0x10FFFF`. -/
def validUtf8 : List Nat → Bool
  | [] => true
  | b :: rest =>
    if b ≤ 0x7F then validUtf8 rest
    else if 0xC2 ≤ b && b ≤ 0xDF then
      match rest with
      | c1 :: r => isCont c1 && validUtf8 r
      | _ => false
    else if b == 0xE0 then
      match rest with
      | c1 :: c2 :: r => (0xA0 ≤ c1 && c1 ≤ 0xBF) && isCont c2 && validUtf8 r
      | _ => false
    else if (0xE1 ≤ b && b ≤ 0xEC) || b == 0xEE || b == 0xEF then
      match rest with
      | c1 :: c2 :: r => isCont c1 && isCont c2 && validUtf8 r
      | _ => false
    else if b == 0xED then
      match rest with
      | c1 :: c2 :: r => (0x80 ≤ c1 && c1 ≤ 0x9F) && isCont c2 && validUtf8 r
      | _ => false
    else if b == 0xF0 then
      match rest with
      | c1 :: c2 :: c3 :: r =>
        (0x90 ≤ c1 && c1 ≤ 0xBF) && isCont c2 && isCont c3 && validUtf8 r
      | _ => false
    else if 0xF1 ≤ b && b ≤ 0xF3 then
      match rest with
      | c1 :: c2 :: c3 :: r => isCont c1 && isCont c2 && isCont c3 && validUtf8 r
      | _ => false
    else if b == 0xF4 then
      match rest with
      | c1 :: c2 :: c3 :: r =>
        (0x80 ≤ c1 && c1 ≤ 0x8F) && isCont c2 && isCont c3 && validUtf8 r
      | _ => false
    else false

/-- `deserialize_str`: 2-byte signed big-endian length prefix; `0` and `-1`
yield the empty string with nothing consumed past the prefix; otherwise
`len as usize` bytes are sliced zero-copy and UTF-8-validated. A decoded
`&str` is modelled by its list of UTF-8 bytes (empty list for `""`). -/
def deserialize_str (d : KafkaDeserializer) : DResult (List Nat) :=
  match read_i16 d with
  | .ok len d1 =>
    if len = 0 ∨ len = -1 then .ok [] d1
    else
      match slice d1 (intAsUsize len) with
      | .ok bs d2 => if validUtf8 bs then .ok bs d2 else .err .InvalidStringEncoding
      | .err e => .err e
      | .panicked => .panicked
  | .err e => .err e
  | .panicked => .panicked

/-- `deserialize_string`: identical framing to `deserialize_str` but copies
the bytes (`copy_slice`) and validates with `String::from_utf8`. -/
def deserialize_string (d : KafkaDeserializer) : DResult (List Nat) :=
  match read_i16 d with
  | .ok len d1 =>
    if len = 0 ∨ len = -1 then .ok [] d1
    else
      match copy_slice d1 (intAsUsize len) with
      | .ok bs d2 => if validUtf8 bs then .ok bs d2 else .err .InvalidStringEncoding
      | .err e => .err e
      | .panicked => .panicked
  | .err e => .err e
  | .panicked => .panicked

/-- `deserialize_bytes`: 4-byte signed length prefix; `0` and `-1` yield the
empty slice; otherwise `len as usize` raw bytes, no validation. -/
def deserialize_bytes (d : KafkaDeserializer) : DResult (List Nat) :=
  match read_i32 d with
  | .ok len d1 =>
    if len = 0 ∨ len = -1 then .ok [] d1
    else
      match slice d1 (intAsUsize len) with
      | .ok bs d2 => .ok bs d2
      | .err e => .err e
      | .panicked => .panicked
  | .err e => .err e
  | .panicked => .panicked

/-- `deserialize_option`: unconditionally `TypeNotSupported("de-option")`. -/
def deserialize_option (α : Type) (_d : KafkaDeserializer) : DResult α :=
  .err (.TypeNotSupported "de-option")

/-- `deserialize_newtype_struct`: unconditionally
`TypeNotSupported("de-newtype")`. -/
def deserialize_newtype_struct (α : Type) (_d : KafkaDeserializer) : DResult α :=
  .err (.TypeNotSupported "de-newtype")

/-- `deserialize_f32`: unconditionally `TypeNotSupported("de-f32")`. -/
def deserialize_f32 (α : Type) (_d : KafkaDeserializer) : DResult α :=
  .err (.TypeNotSupported "de-f32")

/-- The `Access` sequence driver inside `deserialize_tuple`: decode exactly
`n` elements in order, threading the cursor (`next_element_seed` hands out
elements while `len > 0`, then `None`). -/
def decodeCount {α : Type} (elem : KafkaDeserializer → DResult α) :
    Nat → KafkaDeserializer → DResult (List α)
  | 0, d => .ok [] d
  | n + 1, d =>
    match elem d with
    | .ok v d1 =>
      match decodeCount elem n d1 with
      | .ok vs d2 => .ok (v :: vs) d2
      | .err e => .err e
      | .panicked => .panicked
    | .err e => .err e
    | .panicked => .panicked

/-- `deserialize_seq`: 4-byte signed big-endian count (`-1` replaced by `0`),
cast to `usize`, then that many elements decoded recursively through
`deserialize_tuple`. -/
def deserialize_seq {α : Type} (elem : KafkaDeserializer → DResult α)
    (d : KafkaDeserializer) : DResult (List α) :=
  match read_i32 d with
  | .ok len d1 => decodeCount elem (intAsUsize (if len = -1 then 0 else len)) d1
  | .err e => .err e
  | .panicked => .panicked

/-- `deserialize_struct` for a two-field record: it forwards to
`deserialize_tuple(fields.len())`, whose visitor (derived `Deserialize`)
requests the two fields in declaration order with no framing of its own. -/
def deserialize_struct2 {α β : Type} (f1 : KafkaDeserializer → DResult α)
    (f2 : KafkaDeserializer → DResult β) (d : KafkaDeserializer) :
    DResult (α × β) :=
  match f1 d with
  | .ok a d1 =>
    match f2 d1 with
    | .ok b d2 => .ok (a, b) d2
    | .err e => .err e
    | .panicked => .panicked
  | .err e => .err e
  | .panicked => .panicked

/-- `from_bytes`: construct a fresh cursor at position `0` over the whole
buffer and run one deserializer on it. -/
def from_bytes {α : Type} (f : KafkaDeserializer → DResult α) (buf : List Nat) :
    DResult α :=
  f { buf := buf, pos := 0 }

/-- Outcome of one serializer operation: the bytes appended to the sink, a
typed error, or a Rust panic (`Option::unwrap` on `None`). -/
inductive SResult where
  | ok : List Nat → SResult
  | err : ErrorKind → SResult
  | panicked : SResult
  deriving DecidableEq

/-- `serialize_u8`. -/
def serialize_u8 (v : Nat) : SResult := .ok (natToBeBytes 1 v)

/-- `serialize_u16`. -/
def serialize_u16 (v : Nat) : SResult := .ok (natToBeBytes 2 v)

/-- `serialize_u32`. -/
def serialize_u32 (v : Nat) : SResult := .ok (natToBeBytes 4 v)

/-- `serialize_u64`. -/
def serialize_u64 (v : Nat) : SResult := .ok (natToBeBytes 8 v)

/-- `serialize_i8`. -/
def serialize_i8 (v : Int) : SResult := .ok (intToBeBytes 1 v)

/-- `serialize_i16`. -/
def serialize_i16 (v : Int) : SResult := .ok (intToBeBytes 2 v)

/-- `serialize_i32`. -/
def serialize_i32 (v : Int) : SResult := .ok (intToBeBytes 4 v)

/-- `serialize_i64`. -/
def serialize_i64 (v : Int) : SResult := .ok (intToBeBytes 8 v)

/-- `serialize_f64`: writes the 8 big-endian bytes of the IEEE-754 bit
pattern (`v.to_be_bytes()`). -/
def serialize_f64bits (bits : Nat) : SResult := .ok (natToBeBytes 8 bits)

/-- `serialize_bool`: `1u8` for `true`, `0u8` for `false`. -/
def serialize_bool (v : Bool) : SResult :=
  if v then serialize_u8 1 else serialize_u8 0

/-- `serialize_str`: `(v.len() as i16).to_be_bytes()` (length truncated to 16
bits, not validated) followed by the raw UTF-8 bytes. -/
def serialize_str (bs : List Nat) : SResult :=
  .ok (natToBeBytes 2 (bs.length % 2 ^ 16) ++ bs)

/-- `serialize_none`: writes nothing at all. -/
def serialize_none : SResult := .ok []

/-- `serialize_some`: `value.serialize(self)` — exactly the inner value's
write, with no presence marker. `inner` is the inner value's write outcome. -/
def serialize_some (inner : SResult) : SResult := inner

/-- `serialize_newtype_struct`: `value.serialize(self)` — exactly the inner
value's write, with no added framing. -/
def serialize_newtype_struct (inner : SResult) : SResult := inner

/-- `serialize_bytes`: unconditionally `TypeNotSupported("bytes")`. -/
def serialize_bytes : SResult := .err (.TypeNotSupported "bytes")

/-- `serialize_seq`: `len.unwrap() as i32` written big-endian before any
element; a `None` length hint makes `unwrap` panic — no typed error path
exists there. -/
def serialize_seq (len : Option Nat) : SResult :=
  match len with
  | none => .panicked
  | some n => .ok (intToBeBytes 4 (asSigned 4 (n % 2 ^ 32)))

/-- Sequential writes with `?`-propagation, as the `SerializeStruct` /
`SerializeSeq` impls issue them: each entry is one `serialize_field` /
`serialize_element` outcome, concatenated in order. -/
def joinWrites : List SResult → SResult
  | [] => .ok []
  | w :: ws =>
    match w with
    | .ok bs =>
      match joinWrites ws with
      | .ok bs2 => .ok (bs ++ bs2)
      | .err e => .err e
      | .panicked => .panicked
    | .err e => .err e
    | .panicked => .panicked

/-- `serialize_struct` plus the `SerializeStruct` impl: no framing of its
own — the fields are written back-to-back in declaration order. -/
def serialize_struct (fields : List SResult) : SResult := joinWrites fields

/-- A whole sequence write: the `serialize_seq` count prefix followed by the
element writes. -/
def serialize_seq_elems (len : Option Nat) (elems : List SResult) : SResult :=
  match serialize_seq len with
  | .ok pre =>
    match joinWrites elems with
    | .ok bs => .ok (pre ++ bs)
    | .err e => .err e
    | .panicked => .panicked
  | .err e => .err e
  | .panicked => .panicked

theorem from_bytes_eval {α : Type} (f : KafkaDeserializer → DResult α)
    (buf : List Nat) : from_bytes f buf = f { buf := buf, pos := 0 } := rfl

theorem natToBeBytes_length (w v : Nat) : (natToBeBytes w v).length = w := by
  induction w generalizing v with
  | zero => rfl
  | succ w ih => simp [natToBeBytes, ih]

theorem fromBeBytes_append (xs : List Nat) (b : Nat) :
    fromBeBytes (xs ++ [b]) = fromBeBytes xs * 256 + b := by
  simp [fromBeBytes, List.foldl_append]

theorem fromBeBytes_natToBeBytes (w v : Nat) :
    fromBeBytes (natToBeBytes w v) = v % 2 ^ (8 * w) := by
  induction w generalizing v with
  | zero => simp [natToBeBytes, fromBeBytes, Nat.mod_one]
  | succ w ih =>
    have h1 : fromBeBytes (natToBeBytes (w + 1) v)
        = fromBeBytes (natToBeBytes w (v / 256)) * 256 + v % 256 := by
      simp [natToBeBytes, fromBeBytes_append]
    have h3 : 2 ^ (8 * (w + 1)) = 256 * 2 ^ (8 * w) := by
      rw [Nat.mul_succ, pow_add]
      ring
    have h4 : v % (256 * 2 ^ (8 * w)) = v % 256 + 256 * (v / 256 % 2 ^ (8 * w)) :=
      Nat.mod_mul
    rw [h1, ih, h3, h4]
    ring

theorem readBeNat_exact (w : Nat) (bs rest : List Nat) (h : bs.length = w) :
    readBeNat w { buf := bs ++ rest, pos := 0 }
      = .ok (fromBeBytes bs) { buf := bs ++ rest, pos := w } := by
  subst h
  unfold readBeNat
  simp [List.take_left]

theorem twosComp_lt (w : Nat) (v : Int) : twosComp w v < 2 ^ (8 * w) := by
  unfold twosComp
  have hpos : (0 : Int) < ((2 ^ (8 * w) : Nat) : Int) := by
    have h0 : 0 < (2 ^ (8 * w) : Nat) := by positivity
    exact_mod_cast h0
  have h := Int.emod_lt_of_pos v hpos
  have h2 := Int.emod_nonneg v (ne_of_gt hpos)
  omega

theorem asSigned_twosComp_1 (v : Int) (h1 : -(2 ^ 7) ≤ v) (h2 : v < 2 ^ 7) :
    asSigned 1 (twosComp 1 v) = v := by
  unfold asSigned twosComp
  norm_num
  split <;> omega

theorem asSigned_twosComp_2 (v : Int) (h1 : -(2 ^ 15) ≤ v) (h2 : v < 2 ^ 15) :
    asSigned 2 (twosComp 2 v) = v := by
  unfold asSigned twosComp
  norm_num
  split <;> omega

theorem asSigned_twosComp_4 (v : Int) (h1 : -(2 ^ 31) ≤ v) (h2 : v < 2 ^ 31) :
    asSigned 4 (twosComp 4 v) = v := by
  unfold asSigned twosComp
  norm_num
  split <;> omega

theorem asSigned_twosComp_8 (v : Int) (h1 : -(2 ^ 63) ≤ v) (h2 : v < 2 ^ 63) :
    asSigned 8 (twosComp 8 v) = v := by
  unfold asSigned twosComp
  norm_num
  split <;> omega

theorem twosComp_asSigned_4 (n : Nat) (h : n < 2 ^ 32) :
    twosComp 4 (asSigned 4 n) = n := by
  unfold asSigned twosComp
  norm_num
  split <;> omega

theorem intAsUsize_ofNat (n : Nat) (h : n < 2 ^ 64) : intAsUsize (n : Int) = n := by
  unfold intAsUsize
  omega

theorem asSigned_of_small (w n : Nat) (h : n < 2 ^ (8 * w - 1)) :
    asSigned w n = (n : Int) := by
  unfold asSigned
  simp [h]

theorem readBeNat_roundtrip (w v : Nat) (hv : v < 2 ^ (8 * w)) :
    readBeNat w { buf := natToBeBytes w v, pos := 0 }
      = .ok v { buf := natToBeBytes w v, pos := w } := by
  have h := readBeNat_exact w (natToBeBytes w v) [] (natToBeBytes_length w v)
  rw [List.append_nil] at h
  rw [h, fromBeBytes_natToBeBytes, Nat.mod_eq_of_lt hv]

theorem readBeInt_roundtrip (w : Nat) (v : Int)
    (h : asSigned w (twosComp w v) = v) :
    readBeInt w { buf := intToBeBytes w v, pos := 0 }
      = .ok v { buf := intToBeBytes w v, pos := w } := by
  unfold readBeInt intToBeBytes
  rw [readBeNat_roundtrip w (twosComp w v) (twosComp_lt w v)]
  simp [h]

theorem read_u8_cons (b : Nat) (rest : List Nat) :
    from_bytes read_u8 (b :: rest) = .ok b { buf := b :: rest, pos := 1 } := by
  show read_u8 { buf := b :: rest, pos := 0 } = _
  unfold read_u8 check_room USIZE
  norm_num

/-- Exact byte-for-byte round trip: serializing succeeds with some byte
list, and deserializing exactly that byte list from position `0` returns the
original value having consumed the whole list. -/
def RoundTrip {α : Type} (enc : SResult) (dec : KafkaDeserializer → DResult α)
    (v : α) : Prop :=
  ∃ bs : List Nat, enc = .ok bs ∧
    from_bytes dec bs = .ok v { buf := bs, pos := bs.length }

theorem roundtrip_unsigned (w v : Nat) (hv : v < 2 ^ (8 * w)) :
    RoundTrip (.ok (natToBeBytes w v)) (readBeNat w) v :=
  ⟨natToBeBytes w v, rfl, by
    show readBeNat w { buf := natToBeBytes w v, pos := 0 } = _
    rw [natToBeBytes_length]
    exact readBeNat_roundtrip w v hv⟩

theorem roundtrip_signed (w : Nat) (v : Int)
    (h : asSigned w (twosComp w v) = v) :
    RoundTrip (.ok (intToBeBytes w v)) (readBeInt w) v :=
  ⟨intToBeBytes w v, rfl, by
    show readBeInt w { buf := intToBeBytes w v, pos := 0 } = _
    have hl : (intToBeBytes w v).length = w := natToBeBytes_length w _
    rw [hl]
    exact readBeInt_roundtrip w v h⟩

/-- C1: for every representable value of each fixed-width primitive type in
i8, u8, i16, u16, i32, u32, i64, u64, f64 (an `f64` represented by its
IEEE-754 bit pattern, on which `to_be_bytes`/`read_f64` act exactly) and
bool, serializing with `to_writer` and then deserializing the produced bytes
with `from_bytes` yields exactly the original value, consuming the whole
encoding. -/
theorem C1_primitive_roundtrip :
    (∀ v : Nat, v < 2 ^ 8 → RoundTrip (serialize_u8 v) read_u8 v)
  ∧ (∀ v : Int, -(2 ^ 7) ≤ v → v < 2 ^ 7 → RoundTrip (serialize_i8 v) read_i8 v)
  ∧ (∀ v : Nat, v < 2 ^ 16 → RoundTrip (serialize_u16 v) read_u16 v)
  ∧ (∀ v : Int, -(2 ^ 15) ≤ v → v < 2 ^ 15 →
      RoundTrip (serialize_i16 v) read_i16 v)
  ∧ (∀ v : Nat, v < 2 ^ 32 → RoundTrip (serialize_u32 v) read_u32 v)
  ∧ (∀ v : Int, -(2 ^ 31) ≤ v → v < 2 ^ 31 →
      RoundTrip (serialize_i32 v) read_i32 v)
  ∧ (∀ v : Nat, v < 2 ^ 64 → RoundTrip (serialize_u64 v) read_u64 v)
  ∧ (∀ v : Int, -(2 ^ 63) ≤ v → v < 2 ^ 63 →
      RoundTrip (serialize_i64 v) read_i64 v)
  ∧ (∀ bits : Nat, bits < 2 ^ 64 →
      RoundTrip (serialize_f64bits bits) read_f64bits bits)
  ∧ (∀ b : Bool, RoundTrip (serialize_bool b) deserialize_bool b) := by
  refine ⟨?_, ?_, ?_, ?_, ?_, ?_, ?_, ?_, ?_, ?_⟩
  · intro v hv
    have hb : natToBeBytes 1 v = [v] := by
      simp [natToBeBytes, Nat.mod_eq_of_lt (show v < 256 by omega)]
    refine ⟨[v], ?_, ?_⟩
    · show SResult.ok (natToBeBytes 1 v) = SResult.ok [v]
      rw [hb]
    · simpa using read_u8_cons v []
  · intro v h1 h2
    have hlt : twosComp 1 v < 256 := by simpa using twosComp_lt 1 v
    have hb : intToBeBytes 1 v = [twosComp 1 v] := by
      simp [intToBeBytes, natToBeBytes, Nat.mod_eq_of_lt hlt]
    refine ⟨[twosComp 1 v], ?_, ?_⟩
    · show SResult.ok (intToBeBytes 1 v) = SResult.ok [twosComp 1 v]
      rw [hb]
    · show read_i8 { buf := [twosComp 1 v], pos := 0 } = _
      unfold read_i8
      have hr := read_u8_cons (twosComp 1 v) []
      unfold from_bytes at hr
      rw [hr]
      simp [asSigned_twosComp_1 v h1 h2]
  · intro v hv
    exact roundtrip_unsigned 2 v (by simpa using hv)
  · intro v h1 h2
    exact roundtrip_signed 2 v (asSigned_twosComp_2 v h1 h2)
  · intro v hv
    exact roundtrip_unsigned 4 v (by simpa using hv)
  · intro v h1 h2
    exact roundtrip_signed 4 v (asSigned_twosComp_4 v h1 h2)
  · intro v hv
    exact roundtrip_unsigned 8 v (by simpa using hv)
  · intro v h1 h2
    exact roundtrip_signed 8 v (asSigned_twosComp_8 v h1 h2)
  · intro bits hv
    exact roundtrip_unsigned 8 bits (by simpa using hv)
  · intro b
    cases b
    · exact ⟨[0], rfl, by decide⟩
    · exact ⟨[1], rfl, by decide⟩

theorem C1_primitive_roundtrip_witness :
    ((5 : Nat) < 2 ^ 8 ∧ RoundTrip (serialize_u8 5) read_u8 5)
  ∧ (-(2 ^ 7) ≤ (-5 : Int) ∧ (-5 : Int) < 2 ^ 7
      ∧ RoundTrip (serialize_i8 (-5)) read_i8 (-5))
  ∧ ((300 : Nat) < 2 ^ 16 ∧ RoundTrip (serialize_u16 300) read_u16 300)
  ∧ (-(2 ^ 15) ≤ (-300 : Int) ∧ (-300 : Int) < 2 ^ 15
      ∧ RoundTrip (serialize_i16 (-300)) read_i16 (-300))
  ∧ ((16 : Nat) < 2 ^ 32 ∧ RoundTrip (serialize_u32 16) read_u32 16)
  ∧ (-(2 ^ 31) ≤ (-70000 : Int) ∧ (-70000 : Int) < 2 ^ 31
      ∧ RoundTrip (serialize_i32 (-70000)) read_i32 (-70000))
  ∧ ((2 : Nat) ^ 40 < 2 ^ 64 ∧ RoundTrip (serialize_u64 (2 ^ 40)) read_u64 (2 ^ 40))
  ∧ (-(2 ^ 63) ≤ (-(2 ^ 40) : Int) ∧ (-(2 ^ 40) : Int) < 2 ^ 63
      ∧ RoundTrip (serialize_i64 (-(2 ^ 40))) read_i64 (-(2 ^ 40)))
  ∧ ((0x3FF0000000000000 : Nat) < 2 ^ 64
      ∧ RoundTrip (serialize_f64bits 0x3FF0000000000000) read_f64bits 0x3FF0000000000000)
  ∧ RoundTrip (serialize_bool true) deserialize_bool true := by
  obtain ⟨h1, h2, h3, h4, h5, h6, h7, h8, h9, h10⟩ := C1_primitive_roundtrip
  exact ⟨⟨by norm_num, h1 5 (by norm_num)⟩,
    ⟨by norm_num, by norm_num, h2 (-5) (by norm_num) (by norm_num)⟩,
    ⟨by norm_num, h3 300 (by norm_num)⟩,
    ⟨by norm_num, by norm_num, h4 (-300) (by norm_num) (by norm_num)⟩,
    ⟨by norm_num, h5 16 (by norm_num)⟩,
    ⟨by norm_num, by norm_num, h6 (-70000) (by norm_num) (by norm_num)⟩,
    ⟨by norm_num, h7 (2 ^ 40) (by norm_num)⟩,
    ⟨by norm_num, by norm_num, h8 (-(2 ^ 40)) (by norm_num) (by norm_num)⟩,
    ⟨by norm_num, h9 0x3FF0000000000000 (by norm_num)⟩,
    h10 true⟩

/-- C2 counterexample: decoding a string whose 2-byte length prefix is `-2`
(bytes `0xFF 0xFE`) does not return a typed error — the `-2` is cast to the
huge `usize` `2 ^ 64 - 2`, the wrapping bounds check in `check_room` passes,
and the slice `&buf[2..0]` is a Rust panic. -/
theorem C2_counterexample_neg_len :
    from_bytes deserialize_str [0xFF, 0xFE] = .panicked := by decide

theorem slice_no_overflow (d : KafkaDeserializer) (len : Nat)
    (hov : d.pos + len < 2 ^ 64) :
    (d.buf.length < d.pos + len → slice d len = .err .NotEnoughBytes)
    ∧ (d.pos + len ≤ d.buf.length →
        slice d len = .ok ((d.buf.drop d.pos).take len)
          { d with pos := d.pos + len }) := by
  unfold slice check_room USIZE
  have hmod : (d.pos + len) % 2 ^ 64 = d.pos + len := Nat.mod_eq_of_lt hov
  rw [hmod]
  constructor
  · intro h
    have : d.pos + len > d.buf.length := by omega
    simp [this]
  · intro h
    have h1 : ¬ (d.pos + len > d.buf.length) := by omega
    have h2 : d.pos ≤ d.pos + len ∧ d.pos + len ≤ d.buf.length := by omega
    have h3 : d.pos + len - d.pos = len := by omega
    simp [h1, h2, h3]

/-- C2 (amended): for every length request whose position arithmetic does
not wrap — in particular every request coming from a nonnegative wire length
— the decoder returns `NotEnoughBytes` when the request cannot be satisfied
and otherwise reads exactly the in-range bytes; but a negative string length
prefix other than `-1` escapes this discipline (see the counterexample,
where prefix `-2` panics instead of returning a typed error). -/
theorem C2_amended_bounds :
    (∀ (d : KafkaDeserializer) (len : Nat), d.pos + len < 2 ^ 64 →
      (d.buf.length < d.pos + len → slice d len = .err .NotEnoughBytes)
      ∧ (d.pos + len ≤ d.buf.length →
          slice d len = .ok ((d.buf.drop d.pos).take len)
            { d with pos := d.pos + len }))
  ∧ (∀ (n : Int) (body : List Nat), 1 ≤ n → n < 2 ^ 15 →
      body.length < n.toNat →
      from_bytes deserialize_str (intToBeBytes 2 n ++ body)
        = .err .NotEnoughBytes) := by
  refine ⟨slice_no_overflow, ?_⟩
  intro n body hn1 hn2 hshort
  show deserialize_str { buf := intToBeBytes 2 n ++ body, pos := 0 } = _
  unfold deserialize_str
  have hr : read_i16 { buf := intToBeBytes 2 n ++ body, pos := 0 }
      = .ok n { buf := intToBeBytes 2 n ++ body, pos := 2 } := by
    show readBeInt 2 _ = _
    unfold readBeInt
    rw [readBeNat_exact 2 (intToBeBytes 2 n) body (natToBeBytes_length 2 _)]
    rw [show fromBeBytes (intToBeBytes 2 n) = twosComp 2 n by
      rw [intToBeBytes, fromBeBytes_natToBeBytes]
      exact Nat.mod_eq_of_lt (twosComp_lt 2 n)]
    simp [asSigned_twosComp_2 n (by omega) hn2]
  rw [hr]
  have hne : ¬ (n = 0 ∨ n = -1) := by omega
  simp only [hne, if_false]
  have hcast : intAsUsize n = n.toNat := by
    unfold intAsUsize
    omega
  rw [hcast]
  have hov : (2 : Nat) + n.toNat < 2 ^ 64 := by omega
  have hlen : (intToBeBytes 2 n ++ body).length < 2 + n.toNat := by
    simp only [List.length_append, intToBeBytes, natToBeBytes_length]
    omega
  have hs := (slice_no_overflow { buf := intToBeBytes 2 n ++ body, pos := 2 }
    n.toNat (by simpa using hov)).1 (by simpa using hlen)
  rw [hs]

theorem C2_amended_bounds_witness :
    (({ buf := [1, 2, 3], pos := 1 } : KafkaDeserializer).pos + 5 < 2 ^ 64
      ∧ ({ buf := [1, 2, 3], pos := 1 } : KafkaDeserializer).buf.length < 1 + 5
      ∧ slice { buf := [1, 2, 3], pos := 1 } 5 = .err .NotEnoughBytes)
  ∧ ((1 : Int) ≤ 3 ∧ (3 : Int) < 2 ^ 15 ∧ ([97] : List Nat).length < (3 : Int).toNat
      ∧ from_bytes deserialize_str (intToBeBytes 2 3 ++ [97])
          = .err .NotEnoughBytes) := by
  refine ⟨⟨by decide, by decide, ?_⟩, by decide, by decide, by decide, ?_⟩
  · exact (C2_amended_bounds.1 { buf := [1, 2, 3], pos := 1 } 5 (by decide)).1
      (by decide)
  · exact C2_amended_bounds.2 3 [97] (by decide) (by decide) (by decide)

theorem readBeNat_short (w : Nat) (buf : List Nat) (h : buf.length < w) :
    from_bytes (readBeNat w) buf = .err .NotEnoughBytes := by
  show readBeNat w { buf := buf, pos := 0 } = _
  unfold readBeNat
  have h0 : ¬ (buf.length < 0) := by omega
  have h1 : buf.length - 0 < w := by omega
  simp [h0, h1, h]

theorem readBeInt_short (w : Nat) (buf : List Nat) (h : buf.length < w) :
    from_bytes (readBeInt w) buf = .err .NotEnoughBytes := by
  show readBeInt w { buf := buf, pos := 0 } = _
  unfold readBeInt
  have hs := readBeNat_short w buf h
  unfold from_bytes at hs
  rw [hs]

/-- C3: for every supported fixed-width read (8/16/32/64-bit integers, bool,
64-bit float), decoding from a buffer with fewer bytes than the type's width
fails with `NotEnoughBytes` — never a panic, never an out-of-bounds read. -/
theorem C3_truncated_fixed_width :
    ∀ buf : List Nat,
      (buf.length < 1 →
        from_bytes read_u8 buf = .err .NotEnoughBytes
        ∧ from_bytes read_i8 buf = .err .NotEnoughBytes
        ∧ from_bytes deserialize_bool buf = .err .NotEnoughBytes)
    ∧ (buf.length < 2 →
        from_bytes read_u16 buf = .err .NotEnoughBytes
        ∧ from_bytes read_i16 buf = .err .NotEnoughBytes)
    ∧ (buf.length < 4 →
        from_bytes read_u32 buf = .err .NotEnoughBytes
        ∧ from_bytes read_i32 buf = .err .NotEnoughBytes)
    ∧ (buf.length < 8 →
        from_bytes read_u64 buf = .err .NotEnoughBytes
        ∧ from_bytes read_i64 buf = .err .NotEnoughBytes
        ∧ from_bytes read_f64bits buf = .err .NotEnoughBytes) := by
  intro buf
  refine ⟨?_, ?_, ?_, ?_⟩
  · intro h
    have hb : buf = [] := List.length_eq_zero.mp (by omega)
    subst hb
    exact ⟨by decide, by decide, by decide⟩
  · intro h
    exact ⟨readBeNat_short 2 buf h, readBeInt_short 2 buf h⟩
  · intro h
    exact ⟨readBeNat_short 4 buf h, readBeInt_short 4 buf h⟩
  · intro h
    exact ⟨readBeNat_short 8 buf h, readBeInt_short 8 buf h,
      readBeNat_short 8 buf h⟩

theorem C3_truncated_fixed_width_witness :
    (([] : List Nat).length < 1
      ∧ from_bytes read_u8 [] = .err .NotEnoughBytes
      ∧ from_bytes read_i8 [] = .err .NotEnoughBytes
      ∧ from_bytes deserialize_bool [] = .err .NotEnoughBytes)
  ∧ (([7] : List Nat).length < 2
      ∧ from_bytes read_u16 [7] = .err .NotEnoughBytes
      ∧ from_bytes read_i16 [7] = .err .NotEnoughBytes)
  ∧ (([7, 8, 9] : List Nat).length < 4
      ∧ from_bytes read_u32 [7, 8, 9] = .err .NotEnoughBytes
      ∧ from_bytes read_i32 [7, 8, 9] = .err .NotEnoughBytes)
  ∧ (([1, 2, 3, 4, 5, 6, 7] : List Nat).length < 8
      ∧ from_bytes read_u64 [1, 2, 3, 4, 5, 6, 7] = .err .NotEnoughBytes
      ∧ from_bytes read_i64 [1, 2, 3, 4, 5, 6, 7] = .err .NotEnoughBytes
      ∧ from_bytes read_f64bits [1, 2, 3, 4, 5, 6, 7] = .err .NotEnoughBytes) :=
  ⟨⟨by decide, (C3_truncated_fixed_width []).1 (by decide)⟩,
   ⟨by decide, (C3_truncated_fixed_width [7]).2.1 (by decide)⟩,
   ⟨by decide, (C3_truncated_fixed_width [7, 8, 9]).2.2.1 (by decide)⟩,
   ⟨by decide, (C3_truncated_fixed_width [1, 2, 3, 4, 5, 6, 7]).2.2.2 (by decide)⟩⟩

/-- C4: decoding a boolean reads exactly one byte — `0x00` yields `false`,
`0x01` yields `true`, and any other byte value `b` fails with
`InvalidBoolEncoding(b)`. -/
theorem C4_bool_decode :
    ∀ (b : Nat) (rest : List Nat), b < 256 →
      (b = 0 → from_bytes deserialize_bool (b :: rest)
          = .ok false { buf := b :: rest, pos := 1 })
      ∧ (b = 1 → from_bytes deserialize_bool (b :: rest)
          = .ok true { buf := b :: rest, pos := 1 })
      ∧ (b ≠ 0 → b ≠ 1 → from_bytes deserialize_bool (b :: rest)
          = .err (.InvalidBoolEncoding b)) := by
  intro b rest _
  have hr := read_u8_cons b rest
  unfold from_bytes at hr ⊢
  unfold deserialize_bool
  rw [hr]
  refine ⟨?_, ?_, ?_⟩
  · rintro rfl
    rfl
  · rintro rfl
    rfl
  · intro h0 h1
    rcases b with _ | b1
    · exact absurd rfl h0
    rcases b1 with _ | b2
    · exact absurd rfl h1
    · rfl

theorem C4_bool_decode_witness :
    ((0 : Nat) < 256
      ∧ from_bytes deserialize_bool [0] = .ok false { buf := [0], pos := 1 })
  ∧ ((1 : Nat) < 256
      ∧ from_bytes deserialize_bool [1] = .ok true { buf := [1], pos := 1 })
  ∧ ((2 : Nat) < 256
      ∧ from_bytes deserialize_bool [2] = .err (.InvalidBoolEncoding 2)) :=
  ⟨⟨by decide, (C4_bool_decode 0 [] (by decide)).1 rfl⟩,
   ⟨by decide, (C4_bool_decode 1 [] (by decide)).2.1 rfl⟩,
   ⟨by decide, (C4_bool_decode 2 [] (by decide)).2.2 (by decide) (by decide)⟩⟩

theorem read_i16_prefix (b0 b1 : Nat) (rest : List Nat) :
    read_i16 { buf := [b0, b1] ++ rest, pos := 0 }
      = .ok (asSigned 2 (fromBeBytes [b0, b1]))
          { buf := [b0, b1] ++ rest, pos := 2 } := by
  show readBeInt 2 _ = _
  unfold readBeInt
  rw [readBeNat_exact 2 [b0, b1] rest rfl]

theorem read_i32_prefix (b0 b1 b2 b3 : Nat) (rest : List Nat) :
    read_i32 { buf := [b0, b1, b2, b3] ++ rest, pos := 0 }
      = .ok (asSigned 4 (fromBeBytes [b0, b1, b2, b3]))
          { buf := [b0, b1, b2, b3] ++ rest, pos := 4 } := by
  show readBeInt 4 _ = _
  unfold readBeInt
  rw [readBeNat_exact 4 [b0, b1, b2, b3] rest rfl]

theorem read_u8_append (l1 l2 : List Nat) (b : Nat) :
    read_u8 { buf := l1 ++ b :: l2, pos := l1.length }
      = .ok b { buf := l1 ++ b :: l2, pos := l1.length + 1 } := by
  unfold read_u8 check_room
  have h := Nat.mod_le (l1.length + 1) USIZE
  have hc : ¬ (l1.length + (l2.length + 1) < (l1.length + 1) % USIZE) := by omega
  have hget : (l1 ++ b :: l2)[l1.length]? = some b := by
    rw [List.getElem?_append_right (Nat.le_refl _)]
    simp
  simp [hc, hget]

theorem deserialize_str_sentinel (d : KafkaDeserializer) (len : Int)
    (d1 : KafkaDeserializer) (hr : read_i16 d = .ok len d1)
    (hlen : len = 0 ∨ len = -1) :
    deserialize_str d = .ok [] d1 := by
  unfold deserialize_str
  rw [hr]
  show (if len = 0 ∨ len = -1 then DResult.ok [] d1 else _) = DResult.ok [] d1
  rw [if_pos hlen]

theorem deserialize_string_sentinel (d : KafkaDeserializer) (len : Int)
    (d1 : KafkaDeserializer) (hr : read_i16 d = .ok len d1)
    (hlen : len = 0 ∨ len = -1) :
    deserialize_string d = .ok [] d1 := by
  unfold deserialize_string
  rw [hr]
  show (if len = 0 ∨ len = -1 then DResult.ok [] d1 else _) = DResult.ok [] d1
  rw [if_pos hlen]

/-- C5: a string field whose 2-byte signed big-endian length prefix is `0`
or `-1` decodes to the empty string, consuming exactly the 2 prefix bytes —
for both the borrowed (`deserialize_str`) and owned (`deserialize_string`)
forms, whatever bytes follow. -/
theorem C5_string_sentinels :
    ∀ rest : List Nat,
      (from_bytes deserialize_str ([0x00, 0x00] ++ rest)
        = .ok [] { buf := [0x00, 0x00] ++ rest, pos := 2 })
    ∧ (from_bytes deserialize_str ([0xFF, 0xFF] ++ rest)
        = .ok [] { buf := [0xFF, 0xFF] ++ rest, pos := 2 })
    ∧ (from_bytes deserialize_string ([0x00, 0x00] ++ rest)
        = .ok [] { buf := [0x00, 0x00] ++ rest, pos := 2 })
    ∧ (from_bytes deserialize_string ([0xFF, 0xFF] ++ rest)
        = .ok [] { buf := [0xFF, 0xFF] ++ rest, pos := 2 }) := by
  intro rest
  have h00 : read_i16 { buf := [0, 0] ++ rest, pos := 0 }
      = .ok 0 { buf := [0, 0] ++ rest, pos := 2 } := by
    have h := read_i16_prefix 0 0 rest
    rw [show asSigned 2 (fromBeBytes [0, 0]) = 0 by decide] at h
    exact h
  have hFF : read_i16 { buf := [0xFF, 0xFF] ++ rest, pos := 0 }
      = .ok (-1) { buf := [0xFF, 0xFF] ++ rest, pos := 2 } := by
    have h := read_i16_prefix 0xFF 0xFF rest
    rw [show asSigned 2 (fromBeBytes [0xFF, 0xFF]) = -1 by decide] at h
    exact h
  refine ⟨?_, ?_, ?_, ?_⟩
  · rw [from_bytes_eval]
    exact deserialize_str_sentinel _ _ _ h00 (Or.inl rfl)
  · rw [from_bytes_eval]
    exact deserialize_str_sentinel _ _ _ hFF (Or.inr rfl)
  · rw [from_bytes_eval]
    exact deserialize_string_sentinel _ _ _ h00 (Or.inl rfl)
  · rw [from_bytes_eval]
    exact deserialize_string_sentinel _ _ _ hFF (Or.inr rfl)

theorem deserialize_seq_neg1 {α : Type} (elem : KafkaDeserializer → DResult α)
    (d : KafkaDeserializer) (d1 : KafkaDeserializer) {len : Int}
    (hr : read_i32 d = .ok len d1) (hlen : len = -1) :
    deserialize_seq elem d = .ok [] d1 := by
  unfold deserialize_seq
  rw [hr]
  show decodeCount elem (intAsUsize (if len = -1 then 0 else len)) d1 = _
  rw [if_pos hlen, show intAsUsize 0 = 0 by decide]
  rfl

/-- C6: sequence decoding reads a 4-byte signed big-endian count and then
decodes exactly that many elements in order; the concrete 10-byte example
decodes a sequence of u16 to `[1, 2, 3]`, and a `-1` count decodes to the
empty sequence with nothing further consumed. -/
theorem C6_seq_decode :
    (from_bytes (deserialize_seq read_u16) [0, 0, 0, 3, 0, 1, 0, 2, 0, 3]
      = .ok [1, 2, 3] { buf := [0, 0, 0, 3, 0, 1, 0, 2, 0, 3], pos := 10 })
  ∧ (∀ (α : Type) (elem : KafkaDeserializer → DResult α) (rest : List Nat),
      from_bytes (deserialize_seq elem) ([0xFF, 0xFF, 0xFF, 0xFF] ++ rest)
        = .ok [] { buf := [0xFF, 0xFF, 0xFF, 0xFF] ++ rest, pos := 4 })
  ∧ (∀ (α : Type) (elem : KafkaDeserializer → DResult α) (n : Nat)
      (rest : List Nat), n < 2 ^ 31 →
      from_bytes (deserialize_seq elem) (natToBeBytes 4 n ++ rest)
        = decodeCount elem n { buf := natToBeBytes 4 n ++ rest, pos := 4 }) := by
  refine ⟨by decide, ?_, ?_⟩
  · intro α elem rest
    have hFF4 : read_i32 { buf := [0xFF, 0xFF, 0xFF, 0xFF] ++ rest, pos := 0 }
        = .ok (-1) { buf := [0xFF, 0xFF, 0xFF, 0xFF] ++ rest, pos := 4 } := by
      have h := read_i32_prefix 0xFF 0xFF 0xFF 0xFF rest
      rw [show asSigned 4 (fromBeBytes [0xFF, 0xFF, 0xFF, 0xFF]) = -1 by decide] at h
      exact h
    rw [from_bytes_eval]
    exact deserialize_seq_neg1 elem _ _ hFF4 rfl
  · intro α elem n rest hn
    show deserialize_seq elem { buf := natToBeBytes 4 n ++ rest, pos := 0 } = _
    unfold deserialize_seq
    have hr : read_i32 { buf := natToBeBytes 4 n ++ rest, pos := 0 }
        = .ok (n : Int) { buf := natToBeBytes 4 n ++ rest, pos := 4 } := by
      show readBeInt 4 _ = _
      unfold readBeInt
      rw [readBeNat_exact 4 (natToBeBytes 4 n) rest (natToBeBytes_length 4 n)]
      have h1 : fromBeBytes (natToBeBytes 4 n) = n := by
        rw [fromBeBytes_natToBeBytes]
        have h32 : (8 : Nat) * 4 = 32 := by norm_num
        rw [h32]
        exact Nat.mod_eq_of_lt (by omega)
      rw [h1]
      have h2 : asSigned 4 n = (n : Int) := by
        apply asSigned_of_small
        norm_num
        omega
      simp [h2]
    rw [hr]
    show decodeCount elem (intAsUsize (if (n : Int) = -1 then 0 else (n : Int))) _ = _
    rw [if_neg (show ¬ ((n : Int) = -1) by omega),
      intAsUsize_ofNat n (by omega)]

theorem C6_seq_decode_witness :
    (3 : Nat) < 2 ^ 31
    ∧ from_bytes (deserialize_seq read_u16) (natToBeBytes 4 3 ++ [0, 1, 0, 2, 0, 3])
      = decodeCount read_u16 3
          { buf := natToBeBytes 4 3 ++ [0, 1, 0, 2, 0, 3], pos := 4 } :=
  ⟨by decide, C6_seq_decode.2.2 Nat read_u16 3 [0, 1, 0, 2, 0, 3] (by decide)⟩

/-- C7: a two-field record `(a: i32, b: i8)` is encoded with no framing of
its own — exactly the 4 big-endian bytes of `a` immediately followed by the
1 byte of `b`, 5 bytes total — and decoding consumes the two fields strictly
in declaration order, recovering `(a, b)`. -/
theorem C7_record_fields :
    ∀ a b : Int, -(2 ^ 31) ≤ a → a < 2 ^ 31 → -(2 ^ 7) ≤ b → b < 2 ^ 7 →
      serialize_struct [serialize_i32 a, serialize_i8 b]
        = .ok (intToBeBytes 4 a ++ intToBeBytes 1 b)
      ∧ (intToBeBytes 4 a ++ intToBeBytes 1 b).length = 5
      ∧ from_bytes (deserialize_struct2 read_i32 read_i8)
          (intToBeBytes 4 a ++ intToBeBytes 1 b)
        = .ok (a, b) { buf := intToBeBytes 4 a ++ intToBeBytes 1 b, pos := 5 } := by
  intro a b ha1 ha2 hb1 hb2
  have hlt : twosComp 1 b < 256 := by simpa using twosComp_lt 1 b
  have hb8 : intToBeBytes 1 b = [twosComp 1 b] := by
    simp [intToBeBytes, natToBeBytes, Nat.mod_eq_of_lt hlt]
  have hlen : (intToBeBytes 4 a ++ intToBeBytes 1 b).length = 5 := by
    simp only [List.length_append, intToBeBytes, natToBeBytes_length]
  refine ⟨?_, hlen, ?_⟩
  · show joinWrites [SResult.ok (intToBeBytes 4 a), SResult.ok (intToBeBytes 1 b)] = _
    simp [joinWrites]
  · show deserialize_struct2 read_i32 read_i8
        { buf := intToBeBytes 4 a ++ intToBeBytes 1 b, pos := 0 } = _
    unfold deserialize_struct2
    have hr1 : read_i32 { buf := intToBeBytes 4 a ++ intToBeBytes 1 b, pos := 0 }
        = .ok a { buf := intToBeBytes 4 a ++ intToBeBytes 1 b, pos := 4 } := by
      show readBeInt 4 _ = _
      unfold readBeInt
      rw [readBeNat_exact 4 (intToBeBytes 4 a) (intToBeBytes 1 b)
        (natToBeBytes_length 4 _)]
      have h1 : fromBeBytes (intToBeBytes 4 a) = twosComp 4 a := by
        rw [intToBeBytes, fromBeBytes_natToBeBytes]
        exact Nat.mod_eq_of_lt (twosComp_lt 4 a)
      rw [h1]
      simp [asSigned_twosComp_4 a ha1 ha2]
    rw [hr1]
    have hr2 : read_i8 { buf := intToBeBytes 4 a ++ intToBeBytes 1 b, pos := 4 }
        = .ok b { buf := intToBeBytes 4 a ++ intToBeBytes 1 b, pos := 5 } := by
      rw [hb8]
      unfold read_i8
      have h4 : (intToBeBytes 4 a).length = 4 := natToBeBytes_length 4 _
      have hu := read_u8_append (intToBeBytes 4 a) [] (twosComp 1 b)
      rw [h4] at hu
      rw [hu]
      simp [asSigned_twosComp_1 b hb1 hb2]
    simp [hr2]

theorem C7_record_fields_witness :
    (-(2 ^ 31) ≤ (1 : Int) ∧ (1 : Int) < 2 ^ 31
      ∧ -(2 ^ 7) ≤ (2 : Int) ∧ (2 : Int) < 2 ^ 7)
    ∧ (serialize_struct [serialize_i32 1, serialize_i8 2]
        = .ok (intToBeBytes 4 1 ++ intToBeBytes 1 2)
      ∧ (intToBeBytes 4 1 ++ intToBeBytes 1 2).length = 5
      ∧ from_bytes (deserialize_struct2 read_i32 read_i8)
          (intToBeBytes 4 1 ++ intToBeBytes 1 2)
        = .ok (1, 2) { buf := intToBeBytes 4 1 ++ intToBeBytes 1 2, pos := 5 }) :=
  ⟨⟨by norm_num, by norm_num, by norm_num, by norm_num⟩,
    C7_record_fields 1 2 (by norm_num) (by norm_num) (by norm_num) (by norm_num)⟩

/-- C8: on the encode path an absent optional value writes exactly zero
bytes and a present optional value writes exactly the inner value's wire
representation (no presence marker); on the decode path any optional wrapper
always fails with `TypeNotSupported`. -/
theorem C8_option_paths :
    serialize_none = .ok []
  ∧ (∀ inner : SResult, serialize_some inner = inner)
  ∧ (∀ (α : Type) (d : KafkaDeserializer),
      deserialize_option α d = .err (.TypeNotSupported "de-option")) :=
  ⟨rfl, fun _ => rfl, fun _ _ => rfl⟩

/-- C9: encoding a sequence with a known element count `n` writes `n` cast
to a 4-byte big-endian signed 32-bit integer before the elements, while an
absent length hint hits `Option::unwrap` — a panic, not any typed error. -/
theorem C9_seq_len_unwrap :
    (∀ n : Nat, serialize_seq (some n) = .ok (natToBeBytes 4 (n % 2 ^ 32)))
  ∧ (∀ (n : Nat) (elems : List SResult) (bs : List Nat),
      joinWrites elems = .ok bs →
      serialize_seq_elems (some n) elems
        = .ok (natToBeBytes 4 (n % 2 ^ 32) ++ bs))
  ∧ serialize_seq none = .panicked
  ∧ (∀ e : ErrorKind, serialize_seq none ≠ .err e) := by
  have hbytes : ∀ n : Nat,
      intToBeBytes 4 (asSigned 4 (n % 2 ^ 32)) = natToBeBytes 4 (n % 2 ^ 32) := by
    intro n
    unfold intToBeBytes
    rw [twosComp_asSigned_4 (n % 2 ^ 32) (Nat.mod_lt _ (by norm_num))]
  refine ⟨?_, ?_, rfl, ?_⟩
  · intro n
    show SResult.ok (intToBeBytes 4 (asSigned 4 (n % 2 ^ 32))) = _
    rw [hbytes]
  · intro n elems bs hj
    have h1 : serialize_seq (some n) = SResult.ok (natToBeBytes 4 (n % 2 ^ 32)) := by
      show SResult.ok (intToBeBytes 4 (asSigned 4 (n % 2 ^ 32))) = _
      rw [hbytes n]
    unfold serialize_seq_elems
    rw [h1, hj]
  · intro e h
    simp [serialize_seq] at h

theorem C9_seq_len_unwrap_witness :
    joinWrites [SResult.ok [7]] = .ok [7]
    ∧ serialize_seq_elems (some 1) [SResult.ok [7]]
      = .ok (natToBeBytes 4 (1 % 2 ^ 32) ++ [7]) :=
  ⟨by decide, C9_seq_len_unwrap.2.1 1 [SResult.ok [7]] [7] (by decide)⟩

/-- C10: a newtype struct is encoded exactly as its inner value with zero
additional framing bytes, while decoding any newtype struct always fails
with `TypeNotSupported`. -/
theorem C10_newtype_paths :
    (∀ inner : SResult, serialize_newtype_struct inner = inner)
  ∧ (∀ (α : Type) (d : KafkaDeserializer),
      deserialize_newtype_struct α d = .err (.TypeNotSupported "de-newtype")) :=
  ⟨fun _ => rfl, fun _ _ => rfl⟩

end KafkaSerde
